import Mathlib

/-!
Verification of the self-update subsystem of Tiggit
(src/misc/self_update.hpp), shallowly embedded in Lean.

Paths are modelled as lists of components; the filesystem and network
effects of `doAutoUpdate` are recorded as an explicit event trace, and
the outcomes of the external jobs (manifest download, archive download,
unpacking, process launch) are inputs of the model.
-/

namespace SelfUpdate

/-- A filesystem path, as a list of components (boost::filesystem::path). -/
abbrev Path := List String

/-- boost path::parent_path. -/
def parentPath (p : Path) : Path := p.dropLast

/-- boost path::leaf (the last component). -/
def leaf (p : Path) : String := p.getLast?.getD ""

/-- Appending one component to a path (the / operator on boost paths). -/
def child (p : Path) (s : String) : Path := p ++ [s]

/-- DataList::TigInfo, restricted to the fields the updater reads. -/
structure TigInfo where
  version : String
  url : String
deriving DecidableEq, Repr

/-- Outcome of TigListReader::decodeTigFile: an exception, a false
return, or a decoded TigInfo. -/
inductive DecodeRes where
  | exn
  | bad
  | ok (ti : TigInfo)
deriving DecidableEq, Repr

/-- The observable outcome of one manifest DownloadJob together with
the user interaction during the poll loop of checkVersion. -/
structure FetchOutcome where
  canceled : Bool
  success : Bool
  decode : DecodeRes
deriving DecidableEq, Repr

/-- The observable outcomes of the two jobs run by doUpdate:
the archive DownloadJob and the ZipJob. -/
structure UpdOutcome where
  downloadOk : Bool
  unpackOk : Bool
deriving DecidableEq, Repr

/-- Effects performed by the updater, in program order. -/
inductive Event where
  | cleanStaging
  | cleanUpdaterExe
  | readVersion
  | readDllVersion
  | fetch (url : String)
  | download (url : String) (dest : Path)
  | unpack (dest : Path)
  | copy (src : Path) (dst : Path)
  | exec (target : Path)
deriving DecidableEq, Repr

/-- Embeds Updater::checkVersion. Returns the up-to-date verdict (true
means no update needed), the updated offline flag, the value of the
TigInfo out-parameter when the decode wrote it, and the trace. The
DownloadJob is started unconditionally, so the fetch event is emitted
on every call; the offline flag is consulted only after the poll loop. -/
def checkVersion (url : String) (o : FetchOutcome) (offline : Bool)
    (ver : String) : Bool × Bool × Option TigInfo × List Event :=
  let offl := offline || o.canceled
  let ev := [Event.fetch url]
  if !o.success || offl then (true, offl, none, ev)
  else
    match o.decode with
    | .exn => (true, offl, none, ev)
    | .bad => (true, offl, none, ev)
    | .ok ti => (ver == ti.version, offl, some ti, ev)

/-- Embeds Updater::doUpdate: download the archive to a temp file, then
unpack into up_dest; false on non-success of either job. -/
def doUpdate (url : String) (up_dest : Path) (o : UpdOutcome) :
    Bool × List Event :=
  if !o.downloadOk then (false, [Event.download url up_dest])
  else if !o.unpackOk then
    (false, [Event.download url up_dest, Event.unpack up_dest])
  else (true, [Event.download url up_dest, Event.unpack up_dest])

/-- A directory entry as seen by boost::filesystem::directory_iterator:
a name, whether is_regular_file holds, and the file content. -/
structure FileEntry where
  name : String
  regular : Bool
  content : String
deriving DecidableEq, Repr

/-- The copy loop of the updater role (different directories): walk the
source directory, skip non-regular entries, copy each file to the same
leaf name under the destination directory. -/
def copyDirLoop (this_path new_path : Path) : List FileEntry → List Event
  | [] => []
  | en :: rest =>
    if !en.regular then copyDirLoop this_path new_path rest
    else Event.copy (child this_path en.name) (child new_path en.name) ::
      copyDirLoop this_path new_path rest

/-- The copy block of the updater role: same directory means copy only
the running exe onto new_exe; otherwise sync every regular file of the
source directory into the destination directory. -/
def updaterCopies (this_exe new_exe : Path) (listing : List FileEntry) :
    List Event :=
  if parentPath new_exe = parentPath this_exe then
    [Event.copy this_exe new_exe]
  else copyDirLoop (parentPath this_exe) (parentPath new_exe) listing

/-- Contents of a destination directory: an association of leaf names to
file contents. -/
abbrev Dir := List (String × String)

/-- Lookup of a file in a destination directory. -/
def dirGet (d : Dir) (n : String) : Option String :=
  (d.find? (fun e => e.1 == n)).map (fun e => e.2)

/-- UpdateLog::copyLog restricted to its effect on the destination
directory: remove the destination file if it exists, then copy. -/
def copyLogInto (d : Dir) (n c : String) : Dir :=
  (n, c) :: d.filter (fun e => !(e.1 == n))

/-- Effect of the cross-directory copy loop on the destination
directory contents. -/
def syncDirLoop (d : Dir) : List FileEntry → Dir
  | [] => d
  | en :: rest =>
    if !en.regular then syncDirLoop d rest
    else syncDirLoop (copyLogInto d en.name en.content) rest

/-- The content the copy loop leaves for name m, when some regular
source entry has that name: the last such entry wins. -/
def lastWrite : List FileEntry → String → Option String
  | [], _ => none
  | en :: rest, m =>
    match lastWrite rest m with
    | some c => some c
    | none => if en.regular && (en.name == m) then some en.content else none

/-- The external-world inputs of one doAutoUpdate run. -/
structure Env where
  isWindows : Bool
  hasOverride : Bool
  stagingExists : Bool
  updaterExeExists : Bool
  versionFile : Option String
  dllVersionFile : Option String
  useTestUrl : Bool
  appFetch : FetchOutcome
  dllFetch : FetchOutcome
  appUpd : UpdOutcome
  dllUpd : UpdOutcome
  updaterListing : List FileEntry
  execOk : Bool
deriving Repr

def latestUrl : String := "http://tiggit.net/client/latest.tig"

def latestTestUrl : String := "http://tiggit.net/client/latest_test.tig"

def dllsUrl : String := "http://tiggit.net/client/dlls.tig"

/-- The install directory: the parent of the running executable. -/
def installDirOf (this_exe : Path) : Path := parentPath this_exe

/-- The staging directory up_dest = this_path/"update". -/
def stagingDirOf (this_exe : Path) : Path :=
  child (installDirOf this_exe) "update"

/-- The temporary updater executable path this_path/"update.exe". -/
def updaterExeOf (this_exe : Path) : Path :=
  child (installDirOf this_exe) "update.exe"

/-- The updater-helper role of doAutoUpdate (running as update.exe):
copy the staged files over, launch the installed executable, and report
exit (true) without consulting the launch result. -/
def updaterRole (e : Env) (this_exe : Path) : Bool × List Event :=
  let new_exe := child (installDirOf this_exe) "tiggit.exe"
  (true, updaterCopies this_exe new_exe e.updaterListing ++ [Event.exec new_exe])

/-- The dll-channel stage of doAutoUpdate: read the local dll version
marker, check the dll channel, stage new dlls when needed, decide the
run target, launch it and report exit unless the launch failed. -/
def dllStage (e : Env) (this_exe : Path) (offl : Bool) : Bool × List Event :=
  let this_path := installDirOf this_exe
  let updater_exe := updaterExeOf this_exe
  let up_dest := stagingDirOf this_exe
  let c2 := checkVersion dllsUrl e.dllFetch offl (e.dllVersionFile.getD "")
  let ev := Event.readDllVersion :: c2.2.2.2
  if c2.1 then
    let ev4 := ev ++
      [Event.copy (child up_dest "tiggit.exe") updater_exe,
       Event.copy (child up_dest "version") (child this_path "version"),
       Event.exec updater_exe]
    if e.execOk then (true, ev4) else (false, ev4)
  else
    let tid := c2.2.2.1.getD ⟨"", ""⟩
    let u2 := doUpdate tid.url up_dest e.dllUpd
    if !u2.1 then (false, ev ++ u2.2)
    else
      let ev5 := ev ++ u2.2 ++ [Event.exec (child up_dest "tiggit.exe")]
      if e.execOk then (true, ev5) else (false, ev5)

/-- The app-channel stage of doAutoUpdate: check the app channel, stage
the new application when needed, then hand over to the dll stage. -/
def appStage (e : Env) (this_exe : Path) : Bool × List Event :=
  let lurl := if e.useTestUrl then latestTestUrl else latestUrl
  let c1 := checkVersion lurl e.appFetch false (e.versionFile.getD "unknown")
  if c1.1 then (false, c1.2.2.2)
  else
    let ti := c1.2.2.1.getD ⟨"", ""⟩
    let u1 := doUpdate ti.url (stagingDirOf this_exe) e.appUpd
    if !u1.1 then (false, c1.2.2.2 ++ u1.2)
    else
      let d := dllStage e this_exe c1.2.1
      (d.1, c1.2.2.2 ++ u1.2 ++ d.2)

/-- Embeds Updater::doAutoUpdate. Returns whether the application must
exit (true) or keep running the current version (false), and the trace
of effects performed. -/
def doAutoUpdate (e : Env) (this_exe : Path) : Bool × List Event :=
  if !e.isWindows then (false, [])
  else if e.hasOverride then (false, [])
  else if leaf this_exe = "update.exe" then updaterRole e this_exe
  else
    let cleanEv :=
      (if e.stagingExists then [Event.cleanStaging] else []) ++
      (if e.updaterExeExists then [Event.cleanUpdaterExe] else [])
    let didClean := e.stagingExists || e.updaterExeExists
    let ev0 := cleanEv ++ [Event.readVersion]
    if didClean then (false, ev0)
    else
      let a := appStage e this_exe
      (a.1, ev0 ++ a.2)

/-- What one iteration of the download poll loop displays. -/
inductive Display where
  | percent (n : Nat)
  | pulse
deriving DecidableEq, Repr

/-- The progress display computed by one poll-loop iteration: with a
known total, the truncated percentage clamped to 99; otherwise an
indeterminate pulse. -/
def pollDisplay (total current : Nat) : Display :=
  if total ≠ 0 then
    let prog := current * 100 / total
    Display.percent (if prog ≥ 100 then 99 else prog)
  else Display.pulse

/-- Whether one poll-loop iteration aborts the download job: only a
user cancel (the progress dialog returning false) does; the total size
plays no role. -/
def pollIterAborts (total current : Nat) (userOk : Bool) : Bool :=
  let _ := total
  let _ := current
  !userOk

/-! Concrete environments used by witnesses and counterexamples. -/

/-- A baseline run: Windows, no override, no residues, both channels
reachable, app channel reports a newer version, dll channel reports the
version already installed. -/
def envBase : Env :=
  { isWindows := true
    hasOverride := false
    stagingExists := false
    updaterExeExists := false
    versionFile := some "1.4.0"
    dllVersionFile := some "7"
    useTestUrl := false
    appFetch := ⟨false, true, DecodeRes.ok ⟨"1.5.0", "http://tiggit.net/client/app.zip"⟩⟩
    dllFetch := ⟨false, true, DecodeRes.ok ⟨"7", "http://tiggit.net/client/dll.zip"⟩⟩
    appUpd := ⟨true, true⟩
    dllUpd := ⟨true, true⟩
    updaterListing := []
    execOk := true }

/-- A baseline executable location for the main-application role. -/
def exeMain : Path := ["C:", "Tiggit", "tiggit.exe"]

/-- An executable location for the updater-helper role. -/
def exeHelper : Path := ["C:", "Tiggit", "update.exe"]

/-! Theorems. -/

/-- C10: on a non-Windows operating system, doAutoUpdate returns false
immediately with an empty effect trace: no cleanup, no version read, no
fetch, no copy, no launch. -/
theorem c10_non_windows_noop (e : Env) (p : Path) (h : e.isWindows = false) :
    doAutoUpdate e p = (false, []) := by
  simp [doAutoUpdate, h]

/-- Witness for C10 at a concrete non-Windows environment. -/
theorem c10_non_windows_noop_witness :
    doAutoUpdate { envBase with isWindows := false } exeMain = (false, []) :=
  c10_non_windows_noop _ _ rfl

/-- C1, counterexample: with the offline flag already set, checkVersion
still emits the manifest fetch (the trace is not empty), so the network
round trip is not skipped. -/
theorem c1_counterexample :
    (checkVersion latestUrl ⟨false, true, DecodeRes.ok ⟨"1.5.0", "u"⟩⟩
        true "1.4.0").2.2.2 = [Event.fetch latestUrl] ∧
    [Event.fetch latestUrl] ≠ ([] : List Event) := by
  decide

/-- C1, amended: once the offline flag is set, every checkVersion call
returns UpToDate (true) regardless of the transfer outcome and keeps the
flag set, but it still performs the manifest fetch first. -/
theorem c1_offline_forces_uptodate (url ver : String) (o : FetchOutcome) :
    checkVersion url o true ver = (true, true, none, [Event.fetch url]) := by
  simp [checkVersion]

/-- C7, counterexample: at a concrete executable location, the staging
directory and the updater executable path are children of the install
directory (their parent is the install directory itself, not its
parent), hence not siblings of it. -/
theorem c7_counterexample :
    parentPath (stagingDirOf exeMain) = installDirOf exeMain ∧
    parentPath (stagingDirOf exeMain) ≠ parentPath (installDirOf exeMain) ∧
    parentPath (updaterExeOf exeMain) = installDirOf exeMain ∧
    parentPath (updaterExeOf exeMain) ≠ parentPath (installDirOf exeMain) := by
  decide

/-- C7, amended: all paths are derived from the running executable
location; the staging directory and the updater executable path are
located directly inside the install directory (they are its children,
not its siblings). -/
theorem c7_paths_inside_install (p : Path) :
    stagingDirOf p = installDirOf p ++ ["update"] ∧
    updaterExeOf p = installDirOf p ++ ["update.exe"] ∧
    parentPath (stagingDirOf p) = installDirOf p ∧
    parentPath (updaterExeOf p) = installDirOf p := by
  refine ⟨rfl, rfl, ?_, ?_⟩ <;>
    simp [stagingDirOf, updaterExeOf, installDirOf, parentPath, child]

/-- C8: with a nonzero total, the poll loop displays the truncated
percentage bytesDone*100/bytesTotal clamped to 99, so the shown value is
always strictly below 100; with a zero (unknown) total it displays an
indeterminate pulse, and a zero total never aborts the job by itself —
only a user cancel does. -/
theorem c8_progress_display (total current : Nat) (userOk : Bool) :
    (total ≠ 0 →
      pollDisplay total current = Display.percent (min (current * 100 / total) 99) ∧
      ∀ k, pollDisplay total current = Display.percent k → k < 100) ∧
    (total = 0 →
      pollDisplay total current = Display.pulse ∧
      (userOk = true → pollIterAborts total current userOk = false)) := by
  constructor
  · intro h
    unfold pollDisplay
    rw [if_pos h]
    constructor
    · by_cases hp : current * 100 / total ≥ 100
      · simp [hp, Nat.min_eq_right (by omega : 99 ≤ current * 100 / total)]
      · simp [hp, Nat.min_eq_left (by omega : current * 100 / total ≤ 99)]
    · intro k hk
      by_cases hp : current * 100 / total ≥ 100 <;>
        simp [hp] at hk <;> omega
  · intro h
    refine ⟨by simp [pollDisplay, h], fun hu => by simp [pollIterAborts, hu]⟩

/-- Witness for C8: a download past its reported total shows 99, not
100, and an unknown total shows a pulse. -/
theorem c8_progress_display_witness :
    pollDisplay 200 400 = Display.percent 99 ∧ pollDisplay 0 5 = Display.pulse := by
  constructor
  · have h := ((c8_progress_display 200 400 true).1 (by decide)).1
    simpa using h
  · exact ((c8_progress_display 0 5 true).2 rfl).1

/-- Filtering out entries of a different name does not change a lookup. -/
lemma find?_filter_other (d : Dir) (n m : String) (h : m ≠ n) :
    (d.filter (fun e => !(e.1 == n))).find? (fun e => e.1 == m) =
      d.find? (fun e => e.1 == m) := by
  induction d with
  | nil => rfl
  | cons a rest ih =>
    by_cases h1 : a.1 = n
    · have hn : (a.1 == n) = true := by simpa using h1
      have hm : (a.1 == m) = false := by
        simp only [beq_eq_false_iff_ne, ne_eq]
        exact fun hx => h (hx ▸ h1 : m = n)
      simp [List.filter_cons, hn, List.find?_cons, hm, ih]
    · have hn : (a.1 == n) = false := by simpa using h1
      by_cases h2 : a.1 = m
      · have hm : (a.1 == m) = true := by simpa using h2
        simp [List.filter_cons, hn, List.find?_cons, hm]
      · have hm : (a.1 == m) = false := by simpa using h2
        simp [List.filter_cons, hn, List.find?_cons, hm, ih]

/-- Overwriting copy into a destination directory: the copied name now
maps to the new content, every other name is untouched. -/
lemma dirGet_copyLogInto (d : Dir) (n c m : String) :
    dirGet (copyLogInto d n c) m = if m = n then some c else dirGet d m := by
  by_cases h : m = n
  · subst h
    simp [dirGet, copyLogInto, List.find?]
  · rw [if_neg h]
    unfold copyLogInto dirGet
    have hn : ((n, c).1 == m) = false := by
      simp only [beq_eq_false_iff_ne, ne_eq]
      exact fun hnm => h hnm.symm
    rw [List.find?_cons, hn, find?_filter_other d n m h]

/-- Running the updater-role copy loop leaves, for each name, the last
regular source file of that name; names the source does not provide keep
their previous destination content. -/
lemma dirGet_syncDirLoop (es : List FileEntry) (d : Dir) (m : String) :
    dirGet (syncDirLoop d es) m =
      match lastWrite es m with
      | some c => some c
      | none => dirGet d m := by
  induction es generalizing d with
  | nil => simp [syncDirLoop, lastWrite]
  | cons en rest ih =>
    unfold syncDirLoop lastWrite
    by_cases hr : en.regular
    · rw [hr]
      simp only [Bool.not_true, Bool.false_eq_true, if_false]
      rw [ih]
      cases hw : lastWrite rest m
      · simp only
        rw [dirGet_copyLogInto]
        by_cases hm : m = en.name
        · have : (en.name == m) = true := by simpa using hm.symm
          simp [hm, hr, this]
        · have : (en.name == m) = false := by
            simp only [beq_eq_false_iff_ne, ne_eq]
            exact fun hx => hm hx.symm
          simp [hm, this]
      · simp
    · have hr2 : en.regular = false := by simpa using hr
      rw [hr2]
      simp only [Bool.not_false, if_true]
      rw [ih]
      cases hw : lastWrite rest m <;> simp [hr2]

/-- The copy loop over a directory listing copies exactly the regular
files, in order. -/
lemma copyDirLoop_eq_filter_map (tp np : Path) (es : List FileEntry) :
    copyDirLoop tp np es = (es.filter (fun en => en.regular)).map
      (fun en => Event.copy (child tp en.name) (child np en.name)) := by
  induction es with
  | nil => rfl
  | cons en rest ih =>
    by_cases hr : en.regular <;>
      simp [copyDirLoop, List.filter_cons, hr, ih]

/-- C5: in the updater-helper role, equal source and destination
directories copy exactly one file (the running executable onto the main
executable name); different directories copy exactly the regular files
of the source listing, each to its own leaf name in the destination; and
the cross-directory sync is idempotent on destination contents, since
each copy deletes the existing destination file before copying. -/
theorem c5_updater_copy (this_exe new_exe : Path) (l : List FileEntry) (d : Dir) :
    (parentPath new_exe = parentPath this_exe →
      updaterCopies this_exe new_exe l = [Event.copy this_exe new_exe]) ∧
    (parentPath new_exe ≠ parentPath this_exe →
      updaterCopies this_exe new_exe l =
        (l.filter (fun en => en.regular)).map
          (fun en => Event.copy (child (parentPath this_exe) en.name)
            (child (parentPath new_exe) en.name))) ∧
    (∀ m, dirGet (syncDirLoop (syncDirLoop d l) l) m =
      dirGet (syncDirLoop d l) m) := by
  refine ⟨fun h => by simp [updaterCopies, h], fun h => ?_, fun m => ?_⟩
  · rw [updaterCopies, if_neg h, copyDirLoop_eq_filter_map]
  · rw [dirGet_syncDirLoop, dirGet_syncDirLoop]
    cases hw : lastWrite l m <;> simp [hw]

/-- Witness for C5 at concrete directories: a same-directory swap copies
the one executable; a cross-directory sync copies the regular files and
is idempotent at a sample name. -/
theorem c5_updater_copy_witness :
    updaterCopies exeHelper ["C:", "Tiggit", "tiggit.exe"]
        [⟨"tiggit.exe", true, "exe"⟩] =
      [Event.copy exeHelper ["C:", "Tiggit", "tiggit.exe"]] ∧
    updaterCopies ["C:", "stage", "update.exe"] ["C:", "Tiggit", "tiggit.exe"]
        [⟨"tiggit.exe", true, "exe"⟩, ⟨"sub", false, ""⟩] =
      [Event.copy ["C:", "stage", "tiggit.exe"] ["C:", "Tiggit", "tiggit.exe"]] ∧
    dirGet (syncDirLoop (syncDirLoop [("old", "o")] [⟨"tiggit.exe", true, "exe"⟩])
        [⟨"tiggit.exe", true, "exe"⟩]) "tiggit.exe" =
      dirGet (syncDirLoop [("old", "o")] [⟨"tiggit.exe", true, "exe"⟩]) "tiggit.exe" := by
  refine ⟨?_, ?_, ?_⟩
  · exact (c5_updater_copy exeHelper ["C:", "Tiggit", "tiggit.exe"]
      [⟨"tiggit.exe", true, "exe"⟩] []).1 (by decide)
  · have h := (c5_updater_copy ["C:", "stage", "update.exe"]
      ["C:", "Tiggit", "tiggit.exe"]
      [⟨"tiggit.exe", true, "exe"⟩, ⟨"sub", false, ""⟩] []).2.1 (by decide)
    rw [h]
    decide
  · exact (c5_updater_copy exeHelper ["C:", "Tiggit", "tiggit.exe"]
      [⟨"tiggit.exe", true, "exe"⟩] [("old", "o")]).2.2 "tiggit.exe"

/-- C3: in the main-application role, when a staging directory or a
leftover updater executable exists at startup, the run only removes the
existing residues (before any other update action) and reads the local
version marker, then returns false: no manifest fetch, no download, no
unpack, no copy, no process launch happens in that run. -/
theorem c3_cleanup_run (e : Env) (p : Path)
    (hw : e.isWindows = true) (hov : e.hasOverride = false)
    (hleaf : leaf p ≠ "update.exe")
    (hres : e.stagingExists = true ∨ e.updaterExeExists = true) :
    doAutoUpdate e p = (false,
      (if e.stagingExists then [Event.cleanStaging] else []) ++
      (if e.updaterExeExists then [Event.cleanUpdaterExe] else []) ++
      [Event.readVersion]) ∧
    (∀ u, Event.fetch u ∉ (doAutoUpdate e p).2) ∧
    (∀ u d, Event.download u d ∉ (doAutoUpdate e p).2) ∧
    (∀ d, Event.unpack d ∉ (doAutoUpdate e p).2) ∧
    (∀ s d, Event.copy s d ∉ (doAutoUpdate e p).2) ∧
    (∀ t, Event.exec t ∉ (doAutoUpdate e p).2) := by
  cases hs : e.stagingExists <;> cases hu : e.updaterExeExists <;>
    simp_all [doAutoUpdate, hw, hov, hleaf]

/-- Witness for C3: a concrete run with both residues present removes
both and stops. -/
theorem c3_cleanup_run_witness :
    doAutoUpdate { envBase with stagingExists := true, updaterExeExists := true }
        exeMain =
      (false, [Event.cleanStaging, Event.cleanUpdaterExe, Event.readVersion]) := by
  have h := (c3_cleanup_run
    { envBase with stagingExists := true, updaterExeExists := true }
    exeMain rfl rfl (by decide) (Or.inl rfl)).1
  simpa using h

/-- C9: when the manifest reports exactly the locally recorded version,
checkVersion returns UpToDate and doAutoUpdate stops after the manifest
fetch, with no archive download, no unpack and no copy, returning false
before any doUpdate call. -/
theorem c9_same_version_uptodate (e : Env) (p : Path) (ti : TigInfo)
    (hw : e.isWindows = true) (hov : e.hasOverride = false)
    (hleaf : leaf p ≠ "update.exe")
    (hs : e.stagingExists = false) (hu : e.updaterExeExists = false)
    (ha : e.appFetch = ⟨false, true, DecodeRes.ok ti⟩)
    (hv : ti.version = e.versionFile.getD "unknown") :
    (checkVersion (if e.useTestUrl then latestTestUrl else latestUrl)
        e.appFetch false (e.versionFile.getD "unknown")).1 = true ∧
    doAutoUpdate e p =
      (false, [Event.readVersion,
        Event.fetch (if e.useTestUrl then latestTestUrl else latestUrl)]) ∧
    (∀ u d, Event.download u d ∉ (doAutoUpdate e p).2) ∧
    (∀ d, Event.unpack d ∉ (doAutoUpdate e p).2) ∧
    (∀ s d, Event.copy s d ∉ (doAutoUpdate e p).2) := by
  have h1 : checkVersion (if e.useTestUrl then latestTestUrl else latestUrl)
      e.appFetch false (e.versionFile.getD "unknown") =
      (true, false, some ti, [Event.fetch (if e.useTestUrl then latestTestUrl
        else latestUrl)]) := by
    rw [ha]
    simp [checkVersion, ← hv]
  have h2 : doAutoUpdate e p =
      (false, [Event.readVersion,
        Event.fetch (if e.useTestUrl then latestTestUrl else latestUrl)]) := by
    simp [doAutoUpdate, appStage, hw, hov, hleaf, hs, hu, h1]
  refine ⟨by rw [h1], h2, ?_, ?_, ?_⟩ <;> intros <;> rw [h2] <;> simp

/-- Witness for C9: the baseline environment with a matching manifest
version checks out as up to date and performs only the manifest fetch. -/
theorem c9_same_version_uptodate_witness :
    doAutoUpdate
        { envBase with appFetch := ⟨false, true, DecodeRes.ok ⟨"1.4.0", "u"⟩⟩ }
        exeMain =
      (false, [Event.readVersion, Event.fetch latestUrl]) := by
  have h := (c9_same_version_uptodate
    { envBase with appFetch := ⟨false, true, DecodeRes.ok ⟨"1.4.0", "u"⟩⟩ }
    exeMain ⟨"1.4.0", "u"⟩ rfl rfl (by decide) rfl rfl rfl (by decide)).2.1
  simpa using h

/-- checkVersion emits exactly one manifest fetch, in every case. -/
lemma checkVersion_trace (url : String) (o : FetchOutcome) (offl : Bool)
    (ver : String) : (checkVersion url o offl ver).2.2.2 = [Event.fetch url] := by
  rcases o with ⟨c, s, d⟩
  cases c <;> cases s <;> cases d <;> cases offl <;> simp [checkVersion]

/-- checkVersion returns the offline flag it computed: the incoming flag
or-ed with whether the user canceled this poll loop. -/
lemma checkVersion_offline (url : String) (o : FetchOutcome) (offl : Bool)
    (ver : String) : (checkVersion url o offl ver).2.1 = (offl || o.canceled) := by
  rcases o with ⟨c, s, d⟩
  cases c <;> cases s <;> cases d <;> cases offl <;> simp [checkVersion]

/-- C2: after a successful app download and staging, if the dll channel
also changed the run target is the staged executable inside the staging
directory and no file copy touches the install directory; if the dll
channel did not change, exactly two copies happen — the staged
executable to the updater executable path and the staged version marker
over the install version marker — and the run target is the updater
executable path. -/
theorem c2_run_target (e : Env) (p : Path) (ti tid : TigInfo)
    (hw : e.isWindows = true) (hov : e.hasOverride = false)
    (hleaf : leaf p ≠ "update.exe")
    (hs : e.stagingExists = false) (hu : e.updaterExeExists = false)
    (ha : e.appFetch = ⟨false, true, DecodeRes.ok ti⟩)
    (hv : ti.version ≠ e.versionFile.getD "unknown")
    (hau : e.appUpd = ⟨true, true⟩) :
    (e.dllFetch = ⟨false, true, DecodeRes.ok tid⟩ →
      tid.version ≠ e.dllVersionFile.getD "" →
      e.dllUpd = ⟨true, true⟩ →
      doAutoUpdate e p = (e.execOk,
        [Event.readVersion,
         Event.fetch (if e.useTestUrl then latestTestUrl else latestUrl),
         Event.download ti.url (stagingDirOf p),
         Event.unpack (stagingDirOf p),
         Event.readDllVersion, Event.fetch dllsUrl,
         Event.download tid.url (stagingDirOf p),
         Event.unpack (stagingDirOf p),
         Event.exec (child (stagingDirOf p) "tiggit.exe")]) ∧
      (∀ s d, Event.copy s d ∉ (doAutoUpdate e p).2)) ∧
    ((checkVersion dllsUrl e.dllFetch false (e.dllVersionFile.getD "")).1 = true →
      doAutoUpdate e p = (e.execOk,
        [Event.readVersion,
         Event.fetch (if e.useTestUrl then latestTestUrl else latestUrl),
         Event.download ti.url (stagingDirOf p),
         Event.unpack (stagingDirOf p),
         Event.readDllVersion, Event.fetch dllsUrl,
         Event.copy (child (stagingDirOf p) "tiggit.exe") (updaterExeOf p),
         Event.copy (child (stagingDirOf p) "version")
           (child (installDirOf p) "version"),
         Event.exec (updaterExeOf p)])) := by
  have hveq : (e.versionFile.getD "unknown" == ti.version) = false := by
    simp only [beq_eq_false_iff_ne, ne_eq]
    exact fun hx => hv hx.symm
  have h1 : checkVersion (if e.useTestUrl then latestTestUrl else latestUrl)
      e.appFetch false (e.versionFile.getD "unknown") =
      (false, false, some ti,
        [Event.fetch (if e.useTestUrl then latestTestUrl else latestUrl)]) := by
    rw [ha]
    simp [checkVersion, hveq]
  have hu1 : doUpdate ti.url (stagingDirOf p) e.appUpd =
      (true, [Event.download ti.url (stagingDirOf p),
        Event.unpack (stagingDirOf p)]) := by
    rw [hau]
    simp [doUpdate]
  constructor
  · intro hd hdv hdu
    have hdveq : (e.dllVersionFile.getD "" == tid.version) = false := by
      simp only [beq_eq_false_iff_ne, ne_eq]
      exact fun hx => hdv hx.symm
    have h2 : checkVersion dllsUrl e.dllFetch false (e.dllVersionFile.getD "") =
        (false, false, some tid, [Event.fetch dllsUrl]) := by
      rw [hd]
      simp [checkVersion, hdveq]
    have hu2 : doUpdate tid.url (stagingDirOf p) e.dllUpd =
        (true, [Event.download tid.url (stagingDirOf p),
          Event.unpack (stagingDirOf p)]) := by
      rw [hdu]
      simp [doUpdate]
    have hmain : doAutoUpdate e p = (e.execOk,
        [Event.readVersion,
         Event.fetch (if e.useTestUrl then latestTestUrl else latestUrl),
         Event.download ti.url (stagingDirOf p),
         Event.unpack (stagingDirOf p),
         Event.readDllVersion, Event.fetch dllsUrl,
         Event.download tid.url (stagingDirOf p),
         Event.unpack (stagingDirOf p),
         Event.exec (child (stagingDirOf p) "tiggit.exe")]) := by
      cases hex : e.execOk <;>
        simp [doAutoUpdate, appStage, dllStage, hw, hov, hleaf, hs, hu, h1, hu1,
          h2, hu2, hex]
    refine ⟨hmain, ?_⟩
    intro s d
    rw [hmain]
    simp
  · intro hd2
    have hmain : doAutoUpdate e p = (e.execOk,
        [Event.readVersion,
         Event.fetch (if e.useTestUrl then latestTestUrl else latestUrl),
         Event.download ti.url (stagingDirOf p),
         Event.unpack (stagingDirOf p),
         Event.readDllVersion, Event.fetch dllsUrl,
         Event.copy (child (stagingDirOf p) "tiggit.exe") (updaterExeOf p),
         Event.copy (child (stagingDirOf p) "version")
           (child (installDirOf p) "version"),
         Event.exec (updaterExeOf p)]) := by
      cases hex : e.execOk <;>
        simp [doAutoUpdate, appStage, dllStage, hw, hov, hleaf, hs, hu, h1, hu1,
          hd2, checkVersion_trace, hex]
    exact hmain

/-- Witness for C2: the baseline environment takes the unchanged-dll
branch, copies exactly the staged executable and the staged version
marker, and targets the updater executable path. -/
theorem c2_run_target_witness :
    doAutoUpdate envBase exeMain = (true,
      [Event.readVersion, Event.fetch latestUrl,
       Event.download "http://tiggit.net/client/app.zip" (stagingDirOf exeMain),
       Event.unpack (stagingDirOf exeMain),
       Event.readDllVersion, Event.fetch dllsUrl,
       Event.copy (child (stagingDirOf exeMain) "tiggit.exe") (updaterExeOf exeMain),
       Event.copy (child (stagingDirOf exeMain) "version")
         (child (installDirOf exeMain) "version"),
       Event.exec (updaterExeOf exeMain)]) := by
  have h := (c2_run_target envBase exeMain
    ⟨"1.5.0", "http://tiggit.net/client/app.zip"⟩
    ⟨"7", "http://tiggit.net/client/dll.zip"⟩
    rfl rfl (by decide) rfl rfl rfl (by decide) rfl).2 (by decide)
  simpa using h

/-- The main-application role of doAutoUpdate: Windows, no override
file, not running as update.exe, and no residues to clean. -/
def mainRole (e : Env) (p : Path) : Prop :=
  e.isWindows = true ∧ e.hasOverride = false ∧ leaf p ≠ "update.exe" ∧
    e.stagingExists = false ∧ e.updaterExeExists = false

/-- doUpdate succeeds exactly when both the archive download and the
unpack succeed. -/
lemma doUpdate_fst (url : String) (dest : Path) (uo : UpdOutcome) :
    (doUpdate url dest uo).1 = (uo.downloadOk && uo.unpackOk) := by
  rcases uo with ⟨d, u⟩
  cases d <;> cases u <;> simp [doUpdate]

/-- In the main-application role, doAutoUpdate reports exit only if the
update stages did. -/
lemma doAutoUpdate_fst_false (e : Env) (p : Path)
    (hleaf : leaf p ≠ "update.exe") (h : (appStage e p).1 = false) :
    (doAutoUpdate e p).1 = false := by
  simp only [doAutoUpdate, hleaf, if_false]
  split_ifs <;> simp [h]

/-- If every launch fails, the dll stage never reports exit. -/
lemma dllStage_fst_false_of_exec (e : Env) (p : Path) (offl : Bool)
    (hex : e.execOk = false) : (dllStage e p offl).1 = false := by
  simp only [dllStage, hex]
  split_ifs <;> simp_all

/-- C4, counterexample: a dll-channel transfer non-success makes the
dll checkVersion call return UpToDate, yet doAutoUpdate returns true
(the process exits into the staged version), not false. -/
theorem c4_counterexample :
    ({ envBase with dllFetch := ⟨false, false, DecodeRes.bad⟩ } : Env).dllFetch.success
        = false ∧
    (checkVersion dllsUrl ⟨false, false, DecodeRes.bad⟩ false "7").1 = true ∧
    (doAutoUpdate { envBase with dllFetch := ⟨false, false, DecodeRes.bad⟩ }
        exeMain).1 = true := by
  decide

/-- C4, amended: checkVersion returns UpToDate (true) on transfer
non-success, on user cancel, and on manifest decode failure or decode
exception; doUpdate returns false on download or unpack non-success;
and an aborted attempt keeps the current version running: doAutoUpdate
returns false whenever the app-channel check reports up to date,
whenever the app-channel doUpdate fails, and whenever the dll channel
needs an update but its doUpdate fails. (A dll-channel check failure is
instead handled by proceeding without new dlls.) -/
theorem c4_fail_open (url ver : String) (dest : Path) (o : FetchOutcome)
    (offl : Bool) (uo : UpdOutcome) (e : Env) (p : Path) :
    (o.success = false → (checkVersion url o offl ver).1 = true) ∧
    (o.canceled = true → (checkVersion url o offl ver).1 = true) ∧
    (o.decode = DecodeRes.bad → (checkVersion url o offl ver).1 = true) ∧
    (o.decode = DecodeRes.exn → (checkVersion url o offl ver).1 = true) ∧
    (uo.downloadOk = false → (doUpdate url dest uo).1 = false) ∧
    (uo.unpackOk = false → (doUpdate url dest uo).1 = false) ∧
    (mainRole e p →
      (checkVersion (if e.useTestUrl then latestTestUrl else latestUrl)
          e.appFetch false (e.versionFile.getD "unknown")).1 = true →
      (doAutoUpdate e p).1 = false) ∧
    (mainRole e p →
      (e.appUpd.downloadOk = false ∨ e.appUpd.unpackOk = false) →
      (doAutoUpdate e p).1 = false) ∧
    (mainRole e p →
      (checkVersion dllsUrl e.dllFetch e.appFetch.canceled
          (e.dllVersionFile.getD "")).1 = false →
      (e.dllUpd.downloadOk = false ∨ e.dllUpd.unpackOk = false) →
      (doAutoUpdate e p).1 = false) := by
  refine ⟨?_, ?_, ?_, ?_, ?_, ?_, ?_, ?_, ?_⟩
  · intro h
    simp [checkVersion, h]
  · intro h
    simp [checkVersion, h]
  · intro h
    rcases o with ⟨c, s, d⟩
    cases c <;> cases s <;> cases offl <;> simp_all [checkVersion]
  · intro h
    rcases o with ⟨c, s, d⟩
    cases c <;> cases s <;> cases offl <;> simp_all [checkVersion]
  · intro h
    rw [doUpdate_fst, h]
    rfl
  · intro h
    rw [doUpdate_fst, h]
    simp
  · intro h hc
    exact doAutoUpdate_fst_false e p h.2.2.1 (by simp [appStage, hc])
  · intro h hfl
    have hfail : ∀ u d, (doUpdate u d e.appUpd).1 = false := by
      intro u d
      rw [doUpdate_fst]
      rcases hfl with hx | hx <;> simp [hx]
    refine doAutoUpdate_fst_false e p h.2.2.1 ?_
    by_cases hc : (checkVersion (if e.useTestUrl then latestTestUrl else latestUrl)
        e.appFetch false (e.versionFile.getD "unknown")).1 = true
    · simp [appStage, hc]
    · have hc2 : (checkVersion (if e.useTestUrl then latestTestUrl else latestUrl)
          e.appFetch false (e.versionFile.getD "unknown")).1 = false := by
        simpa using hc
      simp [appStage, hc2, hfail]
  · intro h hd hfl
    have hfail : ∀ u d, (doUpdate u d e.dllUpd).1 = false := by
      intro u d
      rw [doUpdate_fst]
      rcases hfl with hx | hx <;> simp [hx]
    have hdll : (dllStage e p e.appFetch.canceled).1 = false := by
      simp [dllStage, hd, hfail]
    refine doAutoUpdate_fst_false e p h.2.2.1 ?_
    by_cases hc : (checkVersion (if e.useTestUrl then latestTestUrl else latestUrl)
        e.appFetch false (e.versionFile.getD "unknown")).1 = true
    · simp [appStage, hc]
    · have hc2 : (checkVersion (if e.useTestUrl then latestTestUrl else latestUrl)
          e.appFetch false (e.versionFile.getD "unknown")).1 = false := by
        simpa using hc
      by_cases hu1 : (e.appUpd.downloadOk && e.appUpd.unpackOk) = true
      · simp [appStage, hc2, doUpdate_fst, hu1, checkVersion_offline, hdll]
      · have hu2 : (e.appUpd.downloadOk && e.appUpd.unpackOk) = false := by
          simpa using hu1
        simp [appStage, hc2, doUpdate_fst, hu2]

/-- Witness for C4 at concrete inputs: a failed manifest transfer
checks out as up to date, a failed unpack fails doUpdate, and a failed
app-channel doUpdate leaves doAutoUpdate at false. -/
theorem c4_fail_open_witness :
    (checkVersion latestUrl ⟨false, false, DecodeRes.bad⟩ false "1.4.0").1 = true ∧
    (doUpdate "u" ["C:", "Tiggit", "update"] ⟨true, false⟩).1 = false ∧
    (doAutoUpdate { envBase with appUpd := ⟨false, true⟩ } exeMain).1 = false := by
  refine ⟨?_, ?_, ?_⟩
  · exact (c4_fail_open latestUrl "1.4.0" ["C:", "Tiggit", "update"]
      ⟨false, false, DecodeRes.bad⟩ false ⟨true, false⟩ envBase exeMain).1 rfl
  · exact (c4_fail_open "u" "1.4.0" ["C:", "Tiggit", "update"]
      ⟨false, false, DecodeRes.bad⟩ false ⟨true, false⟩ envBase exeMain).2.2.2.2.2.1 rfl
  · exact (c4_fail_open "u" "1.4.0" ["C:", "Tiggit", "update"]
      ⟨false, false, DecodeRes.bad⟩ false ⟨true, false⟩
      { envBase with appUpd := ⟨false, true⟩ } exeMain).2.2.2.2.2.2.2.1
      ⟨rfl, rfl, by decide, rfl, rfl⟩ (Or.inl rfl)

/-- C6, counterexample: in the updater-helper role, a failed launch of
the new process does not make doAutoUpdate return false — the launch
result is ignored and the function still reports true (exit). -/
theorem c6_counterexample :
    ({ envBase with execOk := false } : Env).execOk = false ∧
    (doAutoUpdate { envBase with execOk := false } exeHelper).1 = true := by
  decide

/-- C6, amended: only the main-application path checks the launch
result: there a failed launch makes doAutoUpdate return false and the
current process keeps running; the updater-helper path returns true
(exit) regardless of whether the launch succeeded. -/
theorem c6_launch_failure (e : Env) (p : Path) :
    (leaf p = "update.exe" → e.isWindows = true → e.hasOverride = false →
      (doAutoUpdate e p).1 = true) ∧
    (leaf p ≠ "update.exe" → e.execOk = false → (doAutoUpdate e p).1 = false) := by
  constructor
  · intro hl hw hov
    simp [doAutoUpdate, hl, hw, hov, updaterRole]
  · intro hl hex
    have hdll : ∀ offl, (dllStage e p offl).1 = false := fun offl =>
      dllStage_fst_false_of_exec e p offl hex
    refine doAutoUpdate_fst_false e p hl ?_
    by_cases hc : (checkVersion (if e.useTestUrl then latestTestUrl else latestUrl)
        e.appFetch false (e.versionFile.getD "unknown")).1 = true
    · simp [appStage, hc]
    · have hc2 : (checkVersion (if e.useTestUrl then latestTestUrl else latestUrl)
          e.appFetch false (e.versionFile.getD "unknown")).1 = false := by
        simpa using hc
      by_cases hu1 : (e.appUpd.downloadOk && e.appUpd.unpackOk) = true
      · simp [appStage, hc2, doUpdate_fst, hu1, hdll]
      · have hu2 : (e.appUpd.downloadOk && e.appUpd.unpackOk) = false := by
          simpa using hu1
        simp [appStage, hc2, doUpdate_fst, hu2]

/-- Witness for C6: with launches failing, the updater-helper role
still reports exit while the main-application role keeps running. -/
theorem c6_launch_failure_witness :
    (doAutoUpdate { envBase with execOk := false } exeHelper).1 = true ∧
    (doAutoUpdate { envBase with execOk := false } exeMain).1 = false :=
  ⟨(c6_launch_failure { envBase with execOk := false } exeHelper).1 (by decide) rfl rfl,
   (c6_launch_failure { envBase with execOk := false } exeMain).2 (by decide) rfl⟩

end SelfUpdate
